import Mathlib

/-!
Shallow embedding of the MemoryGuard fault-interception core
(src/src/MemoryGuard.hpp) for one thread.

State model: the thread-local variables currentThreadContext and
currentFaultAddress, the process-wide handler installation flag together
with the disposition sigaction installs for SIGSEGV, the Thread Registry
(keys of getThreadHandlers), and the signal mask of the thread. A jmp_buf
is abstracted to the identity of the setjmp site that captured it (a
natural number drawn from a ghost counter nextCp), since segvTryBlock only
compares and jumps to buffers, never inspects their contents. Machine
addresses are naturals; the null pointer is Option.none.
-/

/-- A checkpoint: one __jmp_buf_tag pushed by segvTryBlock, identified by
the invocation that captured it. -/
abbrev Checkpoint := Nat

/-- ThreadContext from MemoryGuard.hpp: the per-thread jmpbuf_stack (head of
the list is the top of the std::stack) and the active flag. The handler
field of the C++ struct always holds threadSegvHandler (set once in
registerThreadHandler), so it is kept out of the record and its one call
site in globalSegvHandler calls threadSegvHandler directly. -/
structure ThreadContext where
  jmpbuf_stack : List Checkpoint
  active : Bool
deriving Repr, DecidableEq

/-- Disposition of SIGSEGV for the process: the OS default fatal action, or
the handler that installGlobalHandlerOnce registers via sigaction, which is
threadSegvHandler (MemoryGuard.hpp line 179). -/
inductive SigHandler where
  | dfl
  | thread
deriving Repr, DecidableEq

/-- The state visible to the fault-interception core from one thread.
installGlobalHandlerOnce sets its static installed flag and performs the
sigaction call together, so the pair is modeled by the single field
sigsegvAction (installed = true exactly when it is SigHandler.thread). -/
structure GuardState where
  ctx : Option ThreadContext
  currentFaultAddress : Option Nat
  sigsegvAction : SigHandler
  registry : List Nat
  tid : Nat
  blocked : List Nat
  nextCp : Nat
deriving Repr, DecidableEq

/-- The SIGSEGV signal number on Linux. -/
def SIGSEGV : Nat := 11

/-- What a signal-handler invocation does at its end: longjmp to a
checkpoint with a value (non-local resume), return normally (the OS then
re-executes the faulting instruction), or fault itself by dereferencing a
null currentThreadContext. -/
inductive HandlerResult where
  | resume (cp : Checkpoint) (v : Nat)
  | ret
  | crash
deriving Repr, DecidableEq

/-- threadSegvHandler from MemoryGuard.hpp lines 65-96: unblocks the
delivered signal via sigprocmask, stores nullptr into currentFaultAddress
(the siginfo fault address siAddr is received but never consulted), then
longjmps to the top of jmpbuf_stack when the stack is non-empty, without
popping it. When the stack is empty it returns. The context pointer is
dereferenced without a null check (the comment on lines 81-82 assumes it is
non-null and active). -/
def threadSegvHandler (signal : Nat) (siAddr : Option Nat) (s : GuardState) :
    GuardState × HandlerResult :=
  let s2 : GuardState :=
    { s with blocked := s.blocked.filter (fun x => x != signal),
             currentFaultAddress := none }
  match s2.ctx with
  | none => (s2, HandlerResult.crash)
  | some c =>
    match c.jmpbuf_stack with
    | [] => (s2, HandlerResult.ret)
    | cp :: _ => (s2, HandlerResult.resume cp (if signal = 0 then 1 else signal))

/-- globalSegvHandler from MemoryGuard.hpp lines 101-112: delegates to the
context handler (threadSegvHandler) only when the context exists and is
active, otherwise returns without handling. Note that
installGlobalHandlerOnce does not install this function; it installs
threadSegvHandler directly. -/
def globalSegvHandler (signal : Nat) (siAddr : Option Nat) (s : GuardState) :
    GuardState × HandlerResult :=
  match s.ctx with
  | some c =>
    if c.active then threadSegvHandler signal siAddr s
    else (s, HandlerResult.ret)
  | none => (s, HandlerResult.ret)

/-- registerThreadHandler from MemoryGuard.hpp lines 115-134: when the
thread has no context yet, creates one (inactive, empty stack, handler :=
threadSegvHandler) and records the thread id in the global map. -/
def registerThreadHandler (s : GuardState) : GuardState :=
  match s.ctx with
  | some _ => s
  | none =>
    { s with ctx := some { jmpbuf_stack := [], active := false },
             registry := s.registry.insert s.tid }

/-- unregisterThreadHandler from MemoryGuard.hpp lines 137-152: when the
thread has a context, erases its entry from the global map and resets the
thread-local pointer; otherwise does nothing. -/
def unregisterThreadHandler (s : GuardState) : GuardState :=
  match s.ctx with
  | some _ =>
    { s with registry := s.registry.filter (fun x => x != s.tid),
             ctx := none }
  | none => s

/-- installGlobalHandlerOnce from MemoryGuard.hpp lines 155-186: on the
first call, registers threadSegvHandler as the SIGSEGV disposition via
sigaction; later calls are no-ops. The static installed flag and the
registered disposition change together and are modeled as one field. -/
def installGlobalHandlerOnce (s : GuardState) : GuardState :=
  if s.sigsegvAction = SigHandler.thread then s
  else { s with sigsegvAction := SigHandler.thread }

/-- Uppercase hexadecimal rendering of a natural number, as the stream
insertion std::hex and std::uppercase produce for a uintptr_t. -/
def toHexUpper (n : Nat) : String :=
  String.mk ((Nat.toDigits 16 n).map Char.toUpper)

/-- The message segvTryBlock builds on lines 224-229 of MemoryGuard.hpp
from the recorded fault address. -/
def faultMessage (addr : Option Nat) : String :=
  match addr with
  | none => "Invalid null pointer access exception"
  | some a => "Invalid memory access exception at address (0x" ++ toHexUpper a ++ ")"

/-- An exception in flight: an ordinary C++ exception raised by caller
code, identified by a code, or an InvalidMemoryAccessException carrying
its message. -/
inductive Exn where
  | ordinary (code : Nat)
  | invalidMemoryAccess (msg : String)
deriving Repr, DecidableEq

/-- Result of running a block of code: normal completion, an exception
propagating, a longjmp in flight to a checkpoint, process death (default
fatal disposition, or the handler itself crashing on a null context), or
an endless fault-redelivery loop (the handler returned, so the OS
re-executes the faulting instruction with unchanged state). -/
inductive Res where
  | ok
  | exn (e : Exn)
  | jump (cp : Checkpoint) (v : Nat)
  | fatal
  | hang
deriving Repr, DecidableEq

/-- The jmpbuf_stack of the current context; an absent context has no
checkpoints. -/
def stackOf (s : GuardState) : List Checkpoint :=
  match s.ctx with
  | some c => c.jmpbuf_stack
  | none => []

/-- The active flag of the current context; false when absent. -/
def activeOf (s : GuardState) : Bool :=
  match s.ctx with
  | some c => c.active
  | none => false

/-- Assignment currentThreadContext->active = b (no-op on an absent
context, which segvTryBlock rules out by registering first). -/
def mgSetActive (b : Bool) (s : GuardState) : GuardState :=
  match s.ctx with
  | some c => { s with ctx := some { c with active := b } }
  | none => s

/-- jmpbuf_stack.push of one checkpoint. -/
def mgPush (cp : Checkpoint) (s : GuardState) : GuardState :=
  match s.ctx with
  | some c => { s with ctx := some { c with jmpbuf_stack := cp :: c.jmpbuf_stack } }
  | none => s

/-- jmpbuf_stack.pop: drops the top entry, a no-op on an empty stack (the
fault path only pops a stack whose top the handler just jumped to). -/
def mgPop (s : GuardState) : GuardState :=
  match s.ctx with
  | some c => { s with ctx := some { c with jmpbuf_stack := c.jmpbuf_stack.tail } }
  | none => s

/-- Delivery of SIGSEGV for a fault at the given address: under the default
disposition the process dies; otherwise the kernel masks the signal and
runs the installed handler, threadSegvHandler. A resume becomes a longjmp
in flight; a plain return re-executes the faulting instruction with a state
the next delivery cannot distinguish, an endless loop; a crash in the
handler is fatal. -/
def deliverSegv (addr : Option Nat) (s : GuardState) : GuardState × Res :=
  match s.sigsegvAction with
  | SigHandler.dfl => (s, Res.fatal)
  | SigHandler.thread =>
    match threadSegvHandler SIGSEGV addr { s with blocked := s.blocked.insert SIGSEGV } with
    | (s2, HandlerResult.resume cp v) => (s2, Res.jump cp v)
    | (s2, HandlerResult.ret) => (s2, Res.hang)
    | (s2, HandlerResult.crash) => (s2, Res.fatal)

/-- Blocks a caller can run under segvTryBlock: do nothing, dereference an
invalid address (none is the null pointer), raise an ordinary C++
exception, sequence two blocks, enter a nested protected region, or a
try/catch of caller code around a block. -/
inductive Blk where
  | skip
  | fault (addr : Option Nat)
  | throwErr (code : Nat)
  | seq (a b : Blk)
  | protect (b : Blk)
  | catchAll (b h : Blk)
deriving Repr, DecidableEq

/-- The prologue of segvTryBlock (MemoryGuard.hpp lines 192-209): ensure
the handler is installed, register a context for the thread, set active,
and after setjmp returns 0 push the fresh jump buffer. -/
def tryPrologue (s : GuardState) : GuardState :=
  mgPush s.nextCp
    { mgSetActive true (registerThreadHandler (installGlobalHandlerOnce s)) with
      nextCp := s.nextCp + 1 }

/-- Runs a block. The protect case is segvTryBlock (MemoryGuard.hpp lines
189-240): after the prologue the body runs; on normal completion the top
checkpoint is popped (guarded by an emptiness check, line 235) and active
is cleared (line 239); a longjmp targeting the checkpoint of this
invocation lands in the else branch of setjmp, which clears active, pops,
and throws InvalidMemoryAccessException built from currentFaultAddress; a
longjmp targeting any other checkpoint passes this frame by, and every
other outcome propagates unchanged. -/
def runBlk : Blk → GuardState → GuardState × Res
  | Blk.skip, s => (s, Res.ok)
  | Blk.throwErr c, s => (s, Res.exn (Exn.ordinary c))
  | Blk.fault addr, s => deliverSegv addr s
  | Blk.seq a b, s =>
    match runBlk a s with
    | (s1, Res.ok) => runBlk b s1
    | r => r
  | Blk.catchAll b h, s =>
    match runBlk b s with
    | (s1, Res.exn _) => runBlk h s1
    | r => r
  | Blk.protect b, s =>
    match runBlk b (tryPrologue s) with
    | (s1, Res.ok) =>
      (mgSetActive false (if (stackOf s1).isEmpty then s1 else mgPop s1), Res.ok)
    | (s1, Res.jump cp v) =>
      if cp = s.nextCp then
        (mgPop (mgSetActive false s1),
         Res.exn (Exn.invalidMemoryAccess (faultMessage s1.currentFaultAddress)))
      else (s1, Res.jump cp v)
    | r => r

/-- segvTryBlock as called from the _try macro: run the given block as one
protected region. -/
def segvTryBlock (b : Blk) (s : GuardState) : GuardState × Res :=
  runBlk (Blk.protect b) s

/-- A fresh thread with the given id, before any protected region: no
context, no handler installed, empty registry and mask. -/
def initState (tid : Nat) : GuardState :=
  { ctx := none, currentFaultAddress := none, sigsegvAction := SigHandler.dfl,
    registry := [], tid := tid, blocked := [], nextCp := 0 }

/-- Blocks that contain no invalid dereference and raise no ordinary
exception anywhere inside. -/
def Blk.clean : Blk → Bool
  | Blk.skip => true
  | Blk.fault _ => false
  | Blk.throwErr _ => false
  | Blk.seq a b => a.clean && b.clean
  | Blk.catchAll b h => b.clean && h.clean
  | Blk.protect b => b.clean

/-- The state after the normal completion of one protected region whose
body was one nested protected region with an empty body: reachable from a
fresh thread by entering the outer region and letting the inner one
complete. Its context is still registered, its stack still holds the outer
checkpoint, and its active flag is already false. -/
def afterInnerCompletion : GuardState :=
  (runBlk (Blk.protect Blk.skip) (tryPrologue (initState 0))).1

/-- A state used to instantiate theorems about a thread whose stack holds
two checkpoints. -/
def twoDeepState : GuardState :=
  { ctx := some { jmpbuf_stack := [3, 4], active := true },
    currentFaultAddress := none, sigsegvAction := SigHandler.thread,
    registry := [0], tid := 0, blocked := [], nextCp := 5 }

/-- Two nested regions where the inner one exits by an ordinary exception
(caught by caller code still inside the outer block) and the outer block
then faults. -/
def staleProgram : Blk :=
  Blk.protect (Blk.seq (Blk.catchAll (Blk.protect (Blk.throwErr 7)) Blk.skip)
    (Blk.fault none))

-- Helper lemmas about the state operations.

theorem installGlobalHandlerOnce_eq (s : GuardState) :
    installGlobalHandlerOnce s = { s with sigsegvAction := SigHandler.thread } := by
  unfold installGlobalHandlerOnce
  split
  · next h => cases s; simp_all
  · rfl

theorem tryPrologue_ctx (s : GuardState) :
    (tryPrologue s).ctx = some { jmpbuf_stack := s.nextCp :: stackOf s, active := true } := by
  unfold tryPrologue
  rw [installGlobalHandlerOnce_eq]
  cases h : s.ctx <;>
    simp [registerThreadHandler, mgSetActive, mgPush, stackOf, h]

theorem tryPrologue_sigsegvAction (s : GuardState) :
    (tryPrologue s).sigsegvAction = SigHandler.thread := by
  unfold tryPrologue
  rw [installGlobalHandlerOnce_eq]
  cases h : s.ctx <;>
    simp [registerThreadHandler, mgSetActive, mgPush, h]

theorem tryPrologue_nextCp (s : GuardState) :
    (tryPrologue s).nextCp = s.nextCp + 1 := by
  unfold tryPrologue
  rw [installGlobalHandlerOnce_eq]
  cases h : s.ctx <;>
    simp [registerThreadHandler, mgSetActive, mgPush, h]

theorem tryPrologue_currentFaultAddress (s : GuardState) :
    (tryPrologue s).currentFaultAddress = s.currentFaultAddress := by
  unfold tryPrologue
  rw [installGlobalHandlerOnce_eq]
  cases h : s.ctx <;>
    simp [registerThreadHandler, mgSetActive, mgPush, h]

theorem stackOf_tryPrologue (s : GuardState) :
    stackOf (tryPrologue s) = s.nextCp :: stackOf s := by
  simp [stackOf, tryPrologue_ctx]

theorem activeOf_tryPrologue (s : GuardState) :
    activeOf (tryPrologue s) = true := by
  simp [activeOf, tryPrologue_ctx]

theorem activeOf_mgSetActive (b : Bool) (s : GuardState) (h : s.ctx.isSome = true) :
    activeOf (mgSetActive b s) = b := by
  cases hc : s.ctx with
  | none => rw [hc] at h; cases h
  | some c => simp [mgSetActive, activeOf, hc]

theorem stackOf_mgSetActive (b : Bool) (s : GuardState) :
    stackOf (mgSetActive b s) = stackOf s := by
  cases hc : s.ctx <;> simp [mgSetActive, stackOf, hc]

theorem stackOf_mgPop (s : GuardState) :
    stackOf (mgPop s) = (stackOf s).tail := by
  cases hc : s.ctx <;> simp [mgPop, stackOf, hc]

theorem ctx_isSome_mgPop (s : GuardState) (h : s.ctx.isSome = true) :
    (mgPop s).ctx.isSome = true := by
  cases hc : s.ctx with
  | none => rw [hc] at h; cases h
  | some c => simp [mgPop, hc]

theorem activeOf_eq_false_of_ctx_none (s : GuardState) (h : s.ctx = none) :
    activeOf s = false := by
  simp [activeOf, h]

theorem activeOf_mgSetActive_false (s : GuardState) :
    activeOf (mgSetActive false s) = false := by
  cases h : s.ctx <;> simp [mgSetActive, activeOf, h]

theorem threadSegvHandler_fst (sig : Nat) (a : Option Nat) (s : GuardState) :
    (threadSegvHandler sig a s).1 =
      { s with blocked := s.blocked.filter (fun x => x != sig),
               currentFaultAddress := none } := by
  cases h : s.ctx with
  | none => simp [threadSegvHandler, h]
  | some c => cases hc : c.jmpbuf_stack <;> simp [threadSegvHandler, h, hc]

theorem contains_filter_ne (sig : Nat) (l : List Nat) :
    (l.filter (fun x => x != sig)).contains sig = false := by
  simp

theorem clean_run (b : Blk) (hb : b.clean = true) :
    ∀ s : GuardState, (runBlk b s).2 = Res.ok ∧ stackOf (runBlk b s).1 = stackOf s := by
  induction b with
  | skip => intro s; simp [runBlk]
  | fault addr => simp [Blk.clean] at hb
  | throwErr c => simp [Blk.clean] at hb
  | seq a b iha ihb =>
    intro s
    simp only [Blk.clean, Bool.and_eq_true] at hb
    simp only [runBlk]
    rcases hr : runBlk a s with ⟨s1, r⟩
    have h1 := iha hb.1 s
    rw [hr] at h1
    simp only at h1
    obtain ⟨h1a, h1b⟩ := h1
    subst h1a
    have h2 := ihb hb.2 s1
    exact ⟨h2.1, h2.2.trans h1b⟩
  | catchAll bb hh ihb ihh =>
    intro s
    simp only [Blk.clean, Bool.and_eq_true] at hb
    simp only [runBlk]
    rcases hr : runBlk bb s with ⟨s1, r⟩
    have h1 := ihb hb.1 s
    rw [hr] at h1
    simp only at h1
    obtain ⟨h1a, h1b⟩ := h1
    subst h1a
    exact ⟨rfl, h1b⟩
  | protect bb ih =>
    intro s
    simp only [Blk.clean] at hb
    simp only [runBlk]
    rcases hr : runBlk bb (tryPrologue s) with ⟨s1, r⟩
    have h1 := ih hb (tryPrologue s)
    rw [hr] at h1
    simp only at h1
    obtain ⟨h1a, h1b⟩ := h1
    subst h1a
    have hs1 : stackOf s1 = s.nextCp :: stackOf s := h1b.trans (stackOf_tryPrologue s)
    refine ⟨rfl, ?_⟩
    simp only
    rw [stackOf_mgSetActive]
    rw [hs1]
    simp [stackOf_mgPop, hs1]

-- The claims.

/-- C1, counterexample. The state reached from a fresh thread by entering
an outer protected region and letting a nested inner region complete
normally: its Thread Fault Context is NOT active (segvTryBlock cleared the
flag on the inner normal path), yet its Protected-Region Stack still holds
the outer checkpoint, and the installed handler threadSegvHandler still
performs the non-local resume on the next fault. This refutes the claim
that a resume happens only when the context is active: the installed
handler (MemoryGuard.hpp line 179 installs threadSegvHandler, not
globalSegvHandler) never consults the active flag. -/
theorem threadSegvHandler_resumes_inactive_context :
    activeOf afterInnerCompletion = false ∧
    stackOf afterInnerCompletion = [0] ∧
    (threadSegvHandler SIGSEGV (some 4096) afterInnerCompletion).2
      = HandlerResult.resume 0 SIGSEGV :=
  ⟨rfl, rfl, rfl⟩

/-- C1, amended. The handler that installGlobalHandlerOnce actually
installs is threadSegvHandler, and on a fault it performs the non-local
resume to the top checkpoint if and only if the thread context pointer is
non-null and the Protected-Region Stack is non-empty; the active flag is
not consulted. When the context exists but the stack is empty the handler
returns without resuming, so the OS re-executes the faulting instruction
(the fault is re-delivered, not restored to the default fatal disposition);
when the context pointer is null the handler itself crashes dereferencing
it. In no case is the fault silently swallowed with normal continuation. -/
theorem threadSegvHandler_resume_iff (sig : Nat) (a : Option Nat) (s : GuardState) :
    ((∃ cp v, (threadSegvHandler sig a s).2 = HandlerResult.resume cp v) ↔
      (s.ctx.isSome = true ∧ stackOf s ≠ [])) ∧
    ((threadSegvHandler sig a s).2 = HandlerResult.crash ↔ s.ctx = none) ∧
    ((threadSegvHandler sig a s).2 = HandlerResult.ret ↔
      (s.ctx.isSome = true ∧ stackOf s = [])) := by
  cases h : s.ctx with
  | none => simp [threadSegvHandler, h, stackOf]
  | some c =>
    cases hc : c.jmpbuf_stack with
    | nil => simp [threadSegvHandler, h, hc, stackOf]
    | cons cp rest => simp [threadSegvHandler, h, hc, stackOf]

/-- C2: evaluation of the code at the failing input. A protected block
faulting at the non-null address 57005 (0xDEAD) raises an
InvalidMemoryAccessException whose message is the null-pointer text and
does not contain the numeric address, because threadSegvHandler overwrites
currentFaultAddress with nullptr (MemoryGuard.hpp line 79) instead of the
siginfo fault address, leaving the address-rendering branch of segvTryBlock
(line 228) dead. The second conjunct shows the message that branch would
produce had the address been recorded. -/
theorem nonnull_fault_reported_as_null_pointer :
    (segvTryBlock (Blk.fault (some 57005)) (initState 0)).2
      = Res.exn (Exn.invalidMemoryAccess "Invalid null pointer access exception") ∧
    faultMessage (some 57005)
      = "Invalid memory access exception at address (0xDEAD)" :=
  ⟨rfl, rfl⟩

/-- C3, counterexample. In staleProgram the inner region (checkpoint 1)
exits by an ordinary exception, which segvTryBlock propagates without
popping, and caller code catches it inside the still-live outer region
(checkpoint 0). When the outer block then faults, the handler resumes to
the top of the stack, which is checkpoint 1 of the already-exited inner
region: the longjmp passes the outer region executor by (the run ends as a
jump to checkpoint 1 in flight, undefined behavior in the C++ program, with
both entries still stacked), refuting the claim that a fault is never
resumed to a checkpoint of a region that has already exited. -/
theorem fault_resumes_checkpoint_of_exited_region :
    (runBlk staleProgram (initState 0)).2 = Res.jump 1 SIGSEGV ∧
    stackOf (runBlk staleProgram (initState 0)).1 = [1, 0] :=
  ⟨rfl, rfl⟩

/-- C3, amended. Within one thread the handler resumes to the most recently
pushed checkpoint still on the Protected-Region Stack (its top); and in the
claimed scenario of nested regions A containing B where only the inner
block of B faults, the inner segvTryBlock raises the structured fault
error, the stack afterwards holds exactly one checkpoint (the one of A),
and A continues normally. The LIFO discipline relates regions that exit
through the own paths of segvTryBlock; a region exited by an ordinary
exception leaves a stale checkpoint behind (see the counterexample). -/
theorem nested_fault_resumes_most_recent_checkpoint (sig : Nat) (a : Option Nat)
    (s : GuardState) (cp : Checkpoint) (rest : List Checkpoint)
    (h : stackOf s = cp :: rest) :
    (threadSegvHandler sig a s).2
      = HandlerResult.resume cp (if sig = 0 then 1 else sig) ∧
    (segvTryBlock (Blk.fault none) (tryPrologue (initState 0))).2
      = Res.exn (Exn.invalidMemoryAccess (faultMessage none)) ∧
    (runBlk (Blk.catchAll (Blk.protect (Blk.fault none)) Blk.skip)
        (tryPrologue (initState 0))).2 = Res.ok ∧
    (stackOf (runBlk (Blk.catchAll (Blk.protect (Blk.fault none)) Blk.skip)
        (tryPrologue (initState 0))).1).length = 1 := by
  refine ⟨?_, rfl, rfl, rfl⟩
  cases hc : s.ctx with
  | none => simp [stackOf, hc] at h
  | some c =>
    simp only [stackOf, hc] at h
    simp [threadSegvHandler, hc, h]

/-- Witness for the amended C3 at a thread whose stack holds the
checkpoints 3 (top) and 4. -/
theorem nested_fault_resumes_most_recent_checkpoint_witness :
    (threadSegvHandler SIGSEGV none twoDeepState).2
      = HandlerResult.resume 3 (if SIGSEGV = 0 then 1 else SIGSEGV) ∧
    (segvTryBlock (Blk.fault none) (tryPrologue (initState 0))).2
      = Res.exn (Exn.invalidMemoryAccess (faultMessage none)) ∧
    (runBlk (Blk.catchAll (Blk.protect (Blk.fault none)) Blk.skip)
        (tryPrologue (initState 0))).2 = Res.ok ∧
    (stackOf (runBlk (Blk.catchAll (Blk.protect (Blk.fault none)) Blk.skip)
        (tryPrologue (initState 0))).1).length = 1 :=
  nested_fault_resumes_most_recent_checkpoint SIGSEGV none twoDeepState 3 [4] rfl

/-- C4: a single protected region whose block dereferences the null pointer
raises InvalidMemoryAccessException with the null-pointer message, from any
starting state of the thread. -/
theorem segvTryBlock_null_fault_raises_null_message (s : GuardState) :
    (segvTryBlock (Blk.fault none) s).2
      = Res.exn (Exn.invalidMemoryAccess "Invalid null pointer access exception") := by
  obtain ⟨ctx, fa, act, reg, tid, bl, ncp⟩ := s
  cases ctx <;> cases act <;>
    simp [segvTryBlock, runBlk, deliverSegv, threadSegvHandler, tryPrologue,
      installGlobalHandlerOnce, registerThreadHandler, mgSetActive, mgPush, mgPop,
      stackOf, faultMessage, SIGSEGV]

/-- C5, counterexample. After a nested inner region completes normally
inside a still-open outer region, the outer checkpoint is still on the
Protected-Region Stack yet the active flag has been cleared (segvTryBlock
line 239 clears it unconditionally), refuting the claim that the flag stays
true exactly while an enclosing checkpoint remains. -/
theorem inner_completion_clears_active_with_outer_checkpoint :
    (runBlk (Blk.protect Blk.skip) (tryPrologue (initState 0))).2 = Res.ok ∧
    stackOf afterInnerCompletion = [0] ∧
    activeOf afterInnerCompletion = false :=
  ⟨rfl, rfl, rfl⟩

/-- C5, amended. On the normal completion path segvTryBlock pops the top
checkpoint (the one it pushed, guarded by a non-emptiness check) and clears
the active flag unconditionally, even when an outer checkpoint of an
enclosing region is still on the stack. -/
theorem segvTryBlock_completion_clears_active (b : Blk) (s : GuardState)
    (h : (segvTryBlock b s).2 = Res.ok) :
    activeOf (segvTryBlock b s).1 = false ∧
    stackOf (segvTryBlock b s).1 = (stackOf (runBlk b (tryPrologue s)).1).tail := by
  unfold segvTryBlock at h ⊢
  simp only [runBlk] at h ⊢
  rcases hr : runBlk b (tryPrologue s) with ⟨s1, r⟩
  rw [hr] at h
  cases r with
  | ok =>
    refine ⟨activeOf_mgSetActive_false _, ?_⟩
    simp only
    rw [stackOf_mgSetActive]
    by_cases he : (stackOf s1).isEmpty
    · rw [if_pos he]
      rw [List.isEmpty_iff.mp he]
      rfl
    · rw [if_neg he]
      exact stackOf_mgPop s1
  | exn e => simp at h
  | jump cp v =>
    exfalso
    have h2 : (if cp = s.nextCp then
        (mgPop (mgSetActive false s1),
          Res.exn (Exn.invalidMemoryAccess (faultMessage s1.currentFaultAddress)))
      else (s1, Res.jump cp v)).2 = Res.ok := h
    by_cases hcp : cp = s.nextCp
    · rw [if_pos hcp] at h2
      exact Res.noConfusion h2
    · rw [if_neg hcp] at h2
      exact Res.noConfusion h2
  | fatal => simp at h
  | hang => simp at h

/-- Witness for the amended C5: one empty protected region on a fresh
thread. -/
theorem segvTryBlock_completion_clears_active_witness :
    activeOf (segvTryBlock Blk.skip (initState 0)).1 = false ∧
    stackOf (segvTryBlock Blk.skip (initState 0)).1
      = (stackOf (runBlk Blk.skip (tryPrologue (initState 0))).1).tail :=
  segvTryBlock_completion_clears_active Blk.skip (initState 0) rfl

/-- C6: any exception the block raises through ordinary means leaves
segvTryBlock exactly as it was raised: not caught, not wrapped, not
suppressed, and not converted into a structured fault error. -/
theorem segvTryBlock_propagates_ordinary_errors (b : Blk) (s : GuardState) (e : Exn)
    (h : (runBlk b (tryPrologue s)).2 = Res.exn e) :
    (segvTryBlock b s).2 = Res.exn e := by
  unfold segvTryBlock
  simp only [runBlk] at h ⊢
  rcases hr : runBlk b (tryPrologue s) with ⟨s1, r⟩
  cases r <;> simp_all

/-- Witness for C6: a block that raises the ordinary exception 3. -/
theorem segvTryBlock_propagates_ordinary_errors_witness :
    (segvTryBlock (Blk.throwErr 3) (initState 0)).2 = Res.exn (Exn.ordinary 3) :=
  segvTryBlock_propagates_ordinary_errors (Blk.throwErr 3) (initState 0)
    (Exn.ordinary 3) rfl

/-- C7: a protected region whose block contains no fault and no error
returns normally and leaves the Protected-Region Stack at the size it had
before the call (the pushed checkpoint is popped again, net zero). -/
theorem segvTryBlock_clean_region_net_zero (b : Blk) (s : GuardState)
    (hb : b.clean = true) :
    (segvTryBlock b s).2 = Res.ok ∧
    (stackOf (segvTryBlock b s).1).length = (stackOf s).length := by
  have h := clean_run (Blk.protect b) (by simpa [Blk.clean] using hb) s
  exact ⟨h.1, by rw [show segvTryBlock b s = runBlk (Blk.protect b) s from rfl, h.2]⟩

/-- Witness for C7: the empty block on a fresh thread. -/
theorem segvTryBlock_clean_region_net_zero_witness :
    (segvTryBlock Blk.skip (initState 0)).2 = Res.ok ∧
    (stackOf (segvTryBlock Blk.skip (initState 0)).1).length
      = (stackOf (initState 0)).length :=
  segvTryBlock_clean_region_net_zero Blk.skip (initState 0) rfl

/-- C8: unregisterThreadHandler is idempotent. The first call (when a
context exists) erases the thread from the registry and clears the
thread-local context pointer; with the pointer null the second call takes
the else path and changes nothing, so two calls in a row equal one call on
every state. Both calls are total functions of the state: neither raises. -/
theorem unregisterThreadHandler_idempotent (s : GuardState) :
    unregisterThreadHandler (unregisterThreadHandler s) = unregisterThreadHandler s := by
  cases h : s.ctx <;> simp [unregisterThreadHandler, h]

/-- C9: on every invocation, threadSegvHandler removes the delivered fault
signal from the thread signal mask before anything else, so the state it
carries into the non-local resume (and into every other outcome) no longer
blocks that signal and the OS can deliver a future fault of the same kind
on the thread. -/
theorem threadSegvHandler_unblocks_signal (sig : Nat) (a : Option Nat) (s : GuardState) :
    ((threadSegvHandler sig a s).1).blocked.contains sig = false := by
  rw [threadSegvHandler_fst]
  exact contains_filter_ne sig s.blocked

/-- C10: when the protected block raises an ordinary exception, segvTryBlock
propagates it without running its completion code: the checkpoint it pushed
stays on the Protected-Region Stack as a stale entry (net growth one) and
the active flag is left set. -/
theorem segvTryBlock_exception_escape_leaves_stale_entry (n : Nat) (s : GuardState) :
    (segvTryBlock (Blk.throwErr n) s).2 = Res.exn (Exn.ordinary n) ∧
    stackOf (segvTryBlock (Blk.throwErr n) s).1 = s.nextCp :: stackOf s ∧
    activeOf (segvTryBlock (Blk.throwErr n) s).1 = true := by
  unfold segvTryBlock
  simp only [runBlk]
  exact ⟨by trivial, stackOf_tryPrologue s, activeOf_tryPrologue s⟩
